import Mathlib

/-!
Shallow embedding of the wavelength-conversion, transition, transition-pair and
2D-spectrum bookkeeping code of the `alpha-var-code` repository (varconlib), together
with proofs about it.

Python floats are modelled as exact rationals (`ℚ`): the properties verified here are
properties of the real-number algorithms the code implements.  Python exceptions are
modelled by `Except PyErr` (or by `Option` where only a single exception can occur,
recorded in the doc comment).  `unyt` arrays are modelled by lists of rationals
together with an explicit unit-conversion factor.
-/

set_option maxRecDepth 40000
set_option maxHeartbeats 1600000

namespace Varconlib

/-- Python exceptions raised by the modelled code paths. -/
inductive PyErr where
  /-- `AttributeError`, e.g. calling `.to` on a bare float. -/
  | attributeError
  /-- `unyt.exceptions.UnitConversionError`, e.g. `.to(u.nm)` on a non-length quantity. -/
  | unitConversionError
  /-- `KeyError` from a failed dictionary lookup. -/
  | keyError
  /-- `ValueError`. -/
  | valueError
  /-- `TypeError`, e.g. `len()` of an object with no length. -/
  | typeError
  /-- `AssertionError` from a failed `assert` statement. -/
  | assertionError
  /-- `RuntimeError`. -/
  | runtimeError
  /-- `varconlib.exceptions.SameWavelengthsError`. -/
  | sameWavelengthsError
  /-- `IndexError` from an out-of-range sequence index. -/
  | indexError
  deriving DecidableEq, Repr

/-- Decidable equality of `Except` results, so that concrete runs of the modelled
fallible functions can be checked by `decide`. -/
instance {ε α : Type} [DecidableEq ε] [DecidableEq α] : DecidableEq (Except ε α) :=
  fun x y =>
    match x, y with
    | .ok a, .ok b =>
      if h : a = b then .isTrue (by rw [h]) else .isFalse (by simp [h])
    | .error a, .error b =>
      if h : a = b then .isTrue (by rw [h]) else .isFalse (by simp [h])
    | .ok _, .error _ => .isFalse (by simp)
    | .error _, .ok _ => .isFalse (by simp)

/-! ## varconlib/conversions/conversions.py -/

/-- Index of refraction of air at temperature `t` (°C), pressure `p` (mmHg) and vacuum
wavelength `l` in Angstroms, from Edlen 1953 (`air_indexEdlen53`, conversions.py
lines 17-43).  The source computes `n = <formula>` then `n = n + 1`. -/
def air_indexEdlen53 (l : ℚ) (t : ℚ := 15) (p : ℚ := 760) : ℚ :=
  1e-6 * p * (1 + (1.049 - 0.0157 * t) * 1e-6 * p) / 720.883 / (1 + 0.003661 * t)
    * (64.328 + 29498.1 / (146 - (1e4 / l) ^ 2) + 255.4 / (41 - (1e4 / l) ^ 2)) + 1

/-- Air wavelength from a vacuum wavelength in Angstroms (`vac2airESO`, conversions.py
lines 46-74): `llair = ll / air_indexEdlen53(ll)`.  The unyt-array wrapper converts the
input to Angstroms and multiplies the result back by the original units; this is the
elementwise core on Angstrom values. -/
def vac2airESO (ll : ℚ) : ℚ := ll / air_indexEdlen53 ll

/-- Convergence tolerance of the air-to-vacuum fixed-point iteration, in Angstroms
(conversions.py line 110). -/
def tolerance : ℚ := 2e-12

/-- Maximum number of iterations of the air-to-vacuum fixed-point iteration
(conversions.py line 111). -/
def num_iter : ℕ := 100

/-- The `while abs(old_wavelength - new_wavelength) > tolerance` loop of `air2vacESO`
(conversions.py lines 118-132) for a single air wavelength in Angstroms.  Each loop
body sets `old := new`, `new := air * air_indexEdlen53(new)` and increments the
iteration counter, raising `RuntimeError('Max number of iterations exceeded!')` as soon
as the counter exceeds `num_iter`.  Here `fuel` is the number of loop bodies that may
still run before that `raise` fires (initially `num_iter`, since the body that would
bring the counter to `num_iter + 1` raises); `none` models the `RuntimeError`. -/
def air2vacLoop (air : ℚ) : ℚ → ℚ → ℕ → Option ℚ
  | old, new, 0 => if |old - new| ≤ tolerance then some new else none
  | old, new, fuel + 1 =>
    if |old - new| ≤ tolerance then some new
    else air2vacLoop air new (air * air_indexEdlen53 new) fuel

/-- One element of the `air2vacESO` conversion: the loop started with
`old_wavelength = 0.` and `new_wavelength = air_wavelengths_array[i].value`
(conversions.py lines 118-120). -/
def air2vacElem (air : ℚ) : Option ℚ := air2vacLoop air 0 air num_iter

/-- Vacuum wavelengths from an array of air wavelengths in Angstroms (`air2vacESO`,
conversions.py lines 77-139): the `for` loop appending one converted value per element
to `vacuum_wavelengths_list`.  `none` models the `RuntimeError` raised when some
element fails to converge; a 2D input is flattened first and reshaped after, so a flat
list of elements is faithful for both shapes. -/
def air2vacESO (air_wavelengths_array : List ℚ) : Option (List ℚ) :=
  match air_wavelengths_array with
  | [] => some []
  | w :: rest => do
    let v ← air2vacElem w
    let vs ← air2vacESO rest
    some (v :: vs)

/-- Unit handling of `air2vacESO`: the input unyt array is converted to Angstroms
(multiplication by the factor `to_angstrom` taking the original unit to Angstroms) and
the result array `vacuum_array.to(original_units)` is converted back. -/
def air2vacESO_withUnits (to_angstrom : ℚ) (arr : List ℚ) : Option (List ℚ) :=
  (air2vacESO (arr.map (fun w => w * to_angstrom))).map
    (fun vs => vs.map (fun v => v / to_angstrom))

/-- Air wavelength from a vacuum wavelength in Angstroms (`vac2airMorton00`,
conversions.py lines 142-153), from Morton (2000, ApJ. Suppl., 130, 403). -/
def vac2airMorton00 (wl_vac : ℚ) : ℚ :=
  let s := 1e4 / wl_vac
  let n := 1 + 0.0000834254 + (0.02406147 / (130 - s ^ 2))
    + (0.00015998 / (38.9 - s ^ 2))
  wl_vac / n

/-- Vacuum wavelength from an air wavelength in Angstroms (`air2vacMortonIAU`,
conversions.py lines 156-166). -/
def air2vacMortonIAU (wl_air : ℚ) : ℚ :=
  let s := 1e4 / wl_air
  let n := 1 + 0.00008336624212083 + (0.02408926869968 / (130.1065924522 - s ^ 2))
    + (0.0001599740894897 / (38.92568793293 - s ^ 2))
  wl_air * n

/-- Successive values of `new_wavelength` in the `air2vacESO` loop for a given air
wavelength: `edlenSeq air start 0 = start` and each iteration maps
`x ↦ air * air_indexEdlen53 x`. -/
def edlenSeq (air start : ℚ) : ℕ → ℚ
  | 0 => start
  | k + 1 => air * air_indexEdlen53 (edlenSeq air start k)

/-- Successive values of `old_wavelength` at the `while` tests of the `air2vacESO`
loop: `old` before any iteration, then the previous `new_wavelength`. -/
def edlenPrev (air old start : ℚ) : ℕ → ℚ
  | 0 => old
  | k + 1 => edlenSeq air start k

/-! ## utils/transition_line.py -/

/-- The `elements` bidict of transition_line.py (atomic number, chemical symbol),
entries 1 through 92. -/
def elements : List (ℕ × String) :=
  [(1, "H"), (2, "He"), (3, "Li"), (4, "Be"), (5, "B"), (6, "C"), (7, "N"),
   (8, "O"), (9, "F"), (10, "Ne"), (11, "Na"), (12, "Mg"), (13, "Al"),
   (14, "Si"), (15, "P"), (16, "S"), (17, "Cl"), (18, "Ar"), (19, "K"),
   (20, "Ca"), (21, "Sc"), (22, "Ti"), (23, "V"), (24, "Cr"), (25, "Mn"),
   (26, "Fe"), (27, "Co"), (28, "Ni"), (29, "Cu"), (30, "Zn"), (31, "Ga"),
   (32, "Ge"), (33, "As"), (34, "Se"), (35, "Br"), (36, "Kr"), (37, "Rb"),
   (38, "Sr"), (39, "Y"), (40, "Zr"), (41, "Nb"), (42, "Mo"), (43, "Tc"),
   (44, "Ru"), (45, "Rh"), (46, "Pd"), (47, "Ag"), (48, "Cd"), (49, "In"),
   (50, "Sn"), (51, "Sb"), (52, "Te"), (53, "I"), (54, "Xe"), (55, "Cs"),
   (56, "Ba"), (57, "La"), (58, "Ce"), (59, "Pr"), (60, "Nd"), (61, "Pm"),
   (62, "Sm"), (63, "Eu"), (64, "Gd"), (65, "Tb"), (66, "Dy"), (67, "Ho"),
   (68, "Er"), (69, "Tm"), (70, "Yb"), (71, "Lu"), (72, "Hf"), (73, "Ta"),
   (74, "W"), (75, "Re"), (76, "Os"), (77, "Ir"), (78, "Pt"), (79, "Au"),
   (80, "Hg"), (81, "Tl"), (82, "Pb"), (83, "Bi"), (84, "Po"), (85, "At"),
   (86, "Rn"), (87, "Fr"), (88, "Ra"), (89, "Ac"), (90, "Th"), (91, "Pa"),
   (92, "U")]

/-- Forward lookup `elements[z]` for an integer key; `none` models a `KeyError`. -/
def elementsFindZ (z : ℤ) : Option String :=
  (elements.find? (fun e => (e.1 : ℤ) == z)).map (fun e => e.2)

/-- Inverse lookup `elements.inv[sym]`; `none` models a `KeyError`. -/
def elementsInv (sym : String) : Option ℕ :=
  (elements.find? (fun e => e.2 == sym)).map (fun e => e.1)

/-- The `roman_numerals` bidict of transition_line.py. -/
def roman_numerals : List (ℤ × String) :=
  [(1, "I"), (2, "II"), (3, "III"), (4, "IV"), (5, "V"),
   (6, "VI"), (7, "VII"), (8, "VIII"), (9, "IX"), (10, "X")]

/-- Inverse lookup `roman_numerals.inv[s]`; `none` models a `KeyError`. -/
def romanNumeralsInv (s : String) : Option ℤ :=
  (roman_numerals.find? (fun e => e.2 == s)).map (fun e => e.1)

/-- Units a `unyt` quantity handed to `Transition.__init__` may carry.  The
temporal unit `s` stands for any unit whose dimension is not length. -/
inductive UnytUnit where
  | nm | angstrom | micrometer | m | cm | s
  deriving DecidableEq, Repr

/-- Whether the unit has dimensions of length (so `.to(u.nm)` succeeds). -/
def UnytUnit.dimensionIsLength : UnytUnit → Bool
  | .s => false
  | _ => true

/-- Conversion factor of the unit to nanometers (value in the unit times the factor is
the value in nm).  The factor of the non-length unit is never used. -/
def UnytUnit.factorToNm : UnytUnit → ℚ
  | .nm => 1
  | .angstrom => 1 / 10
  | .micrometer => 1000
  | .m => 1000000000
  | .cm => 10000000
  | .s => 1

/-- The `wavelength` argument of `Transition.__init__`: either a bare float (which has
no `.to` attribute) or a unyt quantity carrying a unit. -/
inductive PyWavelengthArg where
  | bare (x : ℚ)
  | quantity (value : ℚ) (unit : UnytUnit)

/-- Model of `wavelength.to(u.nm)` (transition_line.py lines 64-70): a bare float has
no `.to`, raising `AttributeError` (re-raised by the source); a quantity with
non-length dimensions raises `unyt`'s `UnitConversionError` (not caught); a length
quantity is converted to nanometers. -/
def toNm : PyWavelengthArg → Except PyErr ℚ
  | .bare _ => .error .attributeError
  | .quantity v u =>
    if u.dimensionIsLength then .ok (v * u.factorToNm) else .error .unitConversionError

/-- The `element` argument of `Transition.__init__`: an int or a str. -/
inductive PyElemArg where
  | int (z : ℤ)
  | str (s : String)

/-- The `ionizationState` argument of `Transition.__init__`: an int or a str. -/
inductive PyIonArg where
  | int (n : ℤ)
  | str (s : String)

/-- Element parsing of `Transition.__init__` (transition_line.py lines 71-100),
returning `(atomicNumber, atomicSymbol)`.  Mirrors the source's branches: a string of
length < 3 is first parsed as an integer (then looked up in `elements`, an uncaught
`KeyError` if absent) and otherwise capitalized and looked up in `elements.inv`
(`KeyError` re-raised if absent); an int is `assert`ed to lie in (0, 119) and looked up
in `elements` (`KeyError` if absent, as for 93..118); any other string falls through to
the final `else`, which stores `int(element)` without setting any symbol, or raises
`TypeError` when the string is not an integer literal.  (The `elif` on line 92 of the
source is dead code: its guard requires an int with a `len`.) -/
def parseElement : PyElemArg → Except PyErr (ℤ × Option String)
  | .int z =>
    if 0 < z ∧ z < 119 then
      match elementsFindZ z with
      | some sym => .ok (z, some sym)
      | none => .error .keyError
    else .error .assertionError
  | .str s =>
    if s.length < 3 then
      match s.toInt? with
      | some n =>
        match elementsFindZ n with
        | some sym => .ok (n, some sym)
        | none => .error .keyError
      | none =>
        match elementsInv s.capitalize with
        | some z => .ok ((z : ℤ), some s.capitalize)
        | none => .error .keyError
    else
      match s.toInt? with
      | some n => .ok (n, none)
      | none => .error .typeError

/-- Ionization-state parsing of `Transition.__init__` (transition_line.py lines
102-111): `int(ionizationState)`, falling back to a Roman-numeral lookup for
non-integer strings, with `ValueError` when both fail. -/
def parseIonizationState : PyIonArg → Except PyErr ℤ
  | .int n => .ok n
  | .str s =>
    match s.toInt? with
    | some n => .ok n
    | none =>
      match romanNumeralsInv s with
      | some n => .ok n
      | none => .error .valueError

/-- A constructed `Transition` (utils/transition_line.py).  `wavelength` is stored in
nanometers; `atomicSymbol` is `none` on the source path that never sets the attribute.
The energy-level attributes initialised to `None` are omitted: no modelled code reads
them. -/
structure Transition where
  wavelength : ℚ
  atomicNumber : ℤ
  atomicSymbol : Option String
  ionizationState : ℤ
  deriving DecidableEq, Repr

/-- Model of `Transition.__init__` (transition_line.py lines 40-118), performing the
wavelength conversion, element parsing and ionization-state parsing in source order. -/
def mkTransition (wavelength : PyWavelengthArg) (element : PyElemArg)
    (ionizationState : PyIonArg) : Except PyErr Transition := do
  let wl ← toNm wavelength
  let zs ← parseElement element
  let ion ← parseIonizationState ionizationState
  .ok { wavelength := wl, atomicNumber := zs.1, atomicSymbol := zs.2,
        ionizationState := ion }

/-! ## varconlib/transition_pair/transition_pair.py -/

/-- A constructed `TransitionPair` holding its two member transitions.  Python compares
the members of two pairs with `==`, which for `Transition` objects (no `__eq__`) is
object identity; structural equality of this record agrees with it whenever the same
transition objects are passed, as in the round-trip property below. -/
structure TransitionPair where
  lowerEnergyTransition : Transition
  higherEnergyTransition : Transition
  deriving DecidableEq, Repr

/-- Model of `TransitionPair.__init__` (transition_pair.py lines 36-62).
`Transition.__gt__`/`__lt__` compare wavelengths, so the longer-wavelength member is
stored as the lower-energy transition; equal wavelengths raise
`SameWavelengthsError`. -/
def mkTransitionPair (transition1 transition2 : Transition) : Except PyErr TransitionPair :=
  if transition1.wavelength > transition2.wavelength then
    .ok { lowerEnergyTransition := transition1, higherEnergyTransition := transition2 }
  else if transition1.wavelength < transition2.wavelength then
    .ok { lowerEnergyTransition := transition2, higherEnergyTransition := transition1 }
  else .error .sameWavelengthsError

/-! ## varconlib/miscellaneous/miscellaneous.py -/

/-- Speed of light `u.c` in m/s. -/
def speed_of_light : ℚ := 299792458

/-- Velocity separation of a pair of wavelengths (`wavelength2velocity`,
miscellaneous.py lines 226-247): `(wavelength2 - wavelength1) * u.c /
((wavelength1 + wavelength2) / 2)`, in m/s for wavelengths in a common length unit. -/
def wavelength2velocity (wavelength1 wavelength2 : ℚ) : ℚ :=
  (wavelength2 - wavelength1) * speed_of_light / ((wavelength1 + wavelength2) / 2)

/-- The `velocitySeparation` property of `TransitionPair` (transition_pair.py lines
64-70): `wave2vel(higherEnergyTransition.wavelength, lowerEnergyTransition.wavelength)`
(the caching in `_velocitySeparation` does not change the value). -/
def velocitySeparation (p : TransitionPair) : ℚ :=
  wavelength2velocity p.higherEnergyTransition.wavelength
    p.lowerEnergyTransition.wavelength

/-- The scan loop of `wavelength2index` (miscellaneous.py lines 97-109) over the
elements of the wavelength array: find the first index `i` whose element is `≥` the
sought wavelength, then return `i - 1` or `i`, whichever element is closer (ties going
to `i`).  `prev` is the element at Python index `i - 1` (the last element of the whole
array when `i = 0`, by Python's negative indexing; that branch is unreachable under the
limit check).  Falling off the end returns Python's implicit `None`. -/
def closestIndexScan (wavelength prev : ℚ) (i : ℕ) : List ℚ → Option ℕ
  | [] => none
  | x :: rest =>
    if x ≥ wavelength then
      some (if |x - wavelength| > |wavelength - prev| then i - 1 else i)
    else closestIndexScan wavelength x (i + 1) rest

/-- Model of `wavelength2index` (miscellaneous.py lines 55-109) with `reverse=False`:
indexing an empty array raises `IndexError`; a wavelength not strictly inside
`(wavelength_array[0], wavelength_array[-1])` raises `RuntimeError`; otherwise the scan
loop runs. -/
def wavelength2index (wavelength : ℚ) : List ℚ → Except PyErr (Option ℕ)
  | [] => .error .indexError
  | w0 :: rest =>
    if w0 < wavelength ∧ wavelength < (w0 :: rest).getLastD 0 then
      .ok (closestIndexScan wavelength ((w0 :: rest).getLastD 0) 0 (w0 :: rest))
    else .error .runtimeError

/-! ## utils/obs2d.py -/

/-- Header card name `'ESO DRS CAL TH COEFF LL{k}'` (obs2d.py line 229). -/
def thCoeffCard (k : ℕ) : String := "ESO DRS CAL TH COEFF LL" ++ toString k

/-- One entry of the wavelength array of `HARPSFile2DScience.getWavelengthArray`
(obs2d.py lines 200-234): starting from `np.zeros`, the loop over `i in range(0, 4)`
adds `header['ESO DRS CAL TH COEFF LL' + str(4 * order + i)] * pixel ** i` to the
entry at `[order, pixel]`. -/
def getWavelengthArrayEntry (header : String → ℚ) (order pixel : ℕ) : ℚ :=
  (List.range 4).foldl
    (fun acc i => acc + header (thCoeffCard (4 * order + i)) * (pixel : ℚ) ^ i) 0

/-- The full wavelength array of `getWavelengthArray`: 72 orders (`trange(0, 72)`) of
4096 pixels (`range(0, 4096)`), the shape of the raw flux array, in Angstroms (the
source returns `wavelength_array * u.angstrom`). -/
def getWavelengthArray (header : String → ℚ) : List (List ℚ) :=
  (List.range 72).map
    (fun order => (List.range 4096).map (fun pixel => getWavelengthArrayEntry header order pixel))

/-- Model of `HARPSFile2DScience.findWavelength` (obs2d.py lines 499-581) with
`closest_only=True`, over the observation's barycentric and (uncorrected) wavelength
arrays, given as functions of order (0..71) and pixel (0..4095) in Angstroms.
The source asserts the sought wavelength lies within the limits of the barycentric
array, collects into `orders_wavelength_found_in` the orders of the wavelength array
whose ends bracket it, and asserts there are fewer than three such orders.  If exactly
one order is found its number is returned.  Otherwise the source evaluates
`elif len(orders_wavelength_found_in == 2):` — `orders_wavelength_found_in == 2`
compares a list with an int, giving `False`, and `len(False)` raises
`TypeError("object of type 'bool' has no len()")`, so the two-order branch (lines
569-579) is unreachable. -/
def findWavelength (barycentricArray wavelengthArray : ℕ → ℕ → ℚ)
    (wavelength : ℚ) : Except PyErr ℕ :=
  if barycentricArray 0 0 ≤ wavelength ∧ wavelength ≤ barycentricArray 71 4095 then
    let orders_wavelength_found_in := (List.range 72).filter
      (fun order => decide (wavelengthArray order 0 ≤ wavelength ∧
                            wavelength ≤ wavelengthArray order 4095))
    if orders_wavelength_found_in.length < 3 then
      match orders_wavelength_found_in with
      | [o] => .ok o
      | _ => .error .typeError
    else .error .assertionError
  else .error .assertionError

/-! ## Auxiliary definitions for the analysis

These are not translations of further source code: they are abbreviations for
subexpressions of the conversion formulas above (each is related to its source function
by a definitional-equality lemma below), plus one concrete wavelength-grid fixture used
to evaluate `findWavelength`. -/

/-- Leading coefficient of the Edlen 1953 formula at the default `t = 15`, `p = 760`. -/
def edlenK : ℚ :=
  1e-6 * 760 * (1 + (1.049 - 0.0157 * 15) * 1e-6 * 760) / 720.883 / (1 + 0.003661 * 15)

/-- The Edlen 1953 refraction index as a function of `s = (1e4/l)^2`. -/
def edlenN (s : ℚ) : ℚ :=
  edlenK * (64.328 + 29498.1 / (146 - s) + 255.4 / (41 - s)) + 1

/-- The Morton 2000 refraction index of `vac2airMorton00` as a function of `s^2`. -/
def mortonN (s : ℚ) : ℚ :=
  1 + 0.0000834254 + (0.02406147 / (130 - s)) + (0.00015998 / (38.9 - s))

/-- The IAU inverse-fit refraction index of `air2vacMortonIAU` as a function of
`s^2`. -/
def mortonIAUN (s : ℚ) : ℚ :=
  1 + 0.00008336624212083 + (0.02408926869968 / (130.1065924522 - s))
    + (0.0001599740894897 / (38.92568793293 - s))

/-- A concrete wavelength grid (72 orders of 4096 pixels, in Angstroms): order `o`
spans `[3799 + 40 o, 3840 + 40 o]`, so consecutive orders overlap by 1 Angstrom, as
HARPS orders do.  Used to evaluate `findWavelength` at concrete inputs. -/
def demoGrid (order pixel : ℕ) : ℚ := 3799 + 40 * order + 41 * pixel / 4095

/-! ## General list helpers -/

theorem getD_map_of_lt {α β : Type} [Inhabited β] (g : α → β) (l : List α) (i : ℕ)
    (d : α) (h : i < l.length) : (l.map g).getD i default = g (l.getD i d) := by
  induction l generalizing i with
  | nil => simp at h
  | cons x xs ih =>
    cases i with
    | zero => rfl
    | succ i => exact ih i (by simpa using h)

theorem getD_range_map {α : Type} (f : ℕ → α) (d : α) (n i : ℕ) (h : i < n) :
    ((List.range n).map f).getD i d = f i := by
  rw [List.getD_eq_getElem?_getD, List.getElem?_map, List.getElem?_range h]
  rfl

/-! ## C3: getWavelengthArray -/

/-- C3: `getWavelengthArray` constructs a wavelength array of the same shape as the
raw flux array — 72 orders by 4096 pixels — whose entry at `[order, pixel]` is the
degree-3 polynomial `∑ i in 0..3, coeff(4 order + i) * pixel^i` with coefficients read
from the FITS header cards `'ESO DRS CAL TH COEFF LLk'` (the array is in Angstroms:
the source returns `wavelength_array * u.angstrom`). -/
theorem getWavelengthArray_spec (header : String → ℚ) (order pixel : ℕ)
    (ho : order < 72) (hp : pixel < 4096) :
    (getWavelengthArray header).length = 72 ∧
    (∀ row ∈ getWavelengthArray header, row.length = 4096) ∧
    ((getWavelengthArray header).getD order []).getD pixel 0
      = ∑ i ∈ Finset.range 4,
          header (thCoeffCard (4 * order + i)) * (pixel : ℚ) ^ i := by
  refine ⟨by simp [getWavelengthArray], ?_, ?_⟩
  · intro row hrow
    simp only [getWavelengthArray, List.mem_map] at hrow
    obtain ⟨o, _, rfl⟩ := hrow
    simp
  · rw [getWavelengthArray, getD_range_map _ _ _ _ ho, getD_range_map _ _ _ _ hp,
      getWavelengthArrayEntry]
    have h4 : List.range 4 = [0, 1, 2, 3] := rfl
    rw [h4]
    simp only [List.foldl]
    rw [Finset.sum_range_succ, Finset.sum_range_succ, Finset.sum_range_succ,
      Finset.sum_range_one]
    ring

/-- Witness for C3 at a concrete header, order 3, pixel 5. -/
theorem getWavelengthArray_spec_witness :
    (getWavelengthArray (fun _ => 1)).length = 72 ∧
    (∀ row ∈ getWavelengthArray (fun _ => 1), row.length = 4096) ∧
    ((getWavelengthArray (fun _ => 1)).getD 3 []).getD 5 0
      = ∑ i ∈ Finset.range 4, (fun _ => (1 : ℚ)) (thCoeffCard (4 * 3 + i)) * (5 : ℚ) ^ i :=
  getWavelengthArray_spec (fun _ => 1) 3 5 (by norm_num) (by norm_num)

/-! ## C4: TransitionPair construction -/

/-- Helper: a successfully constructed pair stores a strictly shorter wavelength in
the higher-energy slot. -/
theorem mkTransitionPair_ok_lt (t1 t2 : Transition) (p : TransitionPair)
    (h : mkTransitionPair t1 t2 = .ok p) :
    p.higherEnergyTransition.wavelength < p.lowerEnergyTransition.wavelength := by
  unfold mkTransitionPair at h
  split_ifs at h with h1 h2
  · cases h; exact h1
  · cases h; exact h2

/-- Helper: the members of a successfully constructed pair are the two arguments. -/
theorem mkTransitionPair_ok_members (t1 t2 : Transition) (p : TransitionPair)
    (h : mkTransitionPair t1 t2 = .ok p) :
    (p.higherEnergyTransition = t1 ∨ p.higherEnergyTransition = t2) ∧
    (p.lowerEnergyTransition = t1 ∨ p.lowerEnergyTransition = t2) := by
  unfold mkTransitionPair at h
  split_ifs at h with h1 h2
  · cases h; exact ⟨Or.inr rfl, Or.inl rfl⟩
  · cases h; exact ⟨Or.inl rfl, Or.inr rfl⟩

/-- C4: constructing a `TransitionPair` from two transitions of equal wavelengths
raises `SameWavelengthsError`; a successfully constructed pair holds the two given
transitions with the higher-energy member of strictly shorter wavelength, whichever
order the arguments were given in; and `TransitionPair(t1, t2)` equals
`TransitionPair(t2, t1)`. -/
theorem transitionPair_spec (t1 t2 : Transition) :
    (t1.wavelength = t2.wavelength →
      mkTransitionPair t1 t2 = .error .sameWavelengthsError) ∧
    (∀ p, mkTransitionPair t1 t2 = .ok p →
      p.higherEnergyTransition.wavelength < p.lowerEnergyTransition.wavelength ∧
      (p.higherEnergyTransition = t1 ∨ p.higherEnergyTransition = t2) ∧
      (p.lowerEnergyTransition = t1 ∨ p.lowerEnergyTransition = t2)) ∧
    (∀ p q, mkTransitionPair t1 t2 = .ok p → mkTransitionPair t2 t1 = .ok q →
      p = q) := by
  refine ⟨?_, ?_, ?_⟩
  · intro heq
    unfold mkTransitionPair
    rw [if_neg (by simp [heq]), if_neg (by simp [heq])]
  · intro p hp
    exact ⟨mkTransitionPair_ok_lt t1 t2 p hp, mkTransitionPair_ok_members t1 t2 p hp⟩
  · intro p q hp hq
    unfold mkTransitionPair at hp hq
    rcases lt_trichotomy t1.wavelength t2.wavelength with h | h | h
    · rw [if_neg (by simp [not_lt, le_of_lt h]), if_pos h] at hp
      rw [if_pos h] at hq
      cases hp; cases hq; rfl
    · rw [if_neg (by simp [h]), if_neg (by simp [h])] at hp
      cases hp
    · rw [if_pos h] at hp
      rw [if_neg (by simp [not_lt, le_of_lt h]), if_pos h] at hq
      cases hp; cases hq; rfl

/-- Witness for C4: the equal-wavelength case raises, and a concrete distinct pair is
ordered the same way from both argument orders. -/
theorem transitionPair_spec_witness :
    mkTransitionPair ⟨500, 26, some "Fe", 1⟩ ⟨500, 26, some "Fe", 1⟩
      = .error .sameWavelengthsError ∧
    ((⟨⟨600, 26, some "Fe", 1⟩, ⟨500, 22, some "Ti", 1⟩⟩ : TransitionPair).higherEnergyTransition.wavelength
        < (⟨⟨600, 26, some "Fe", 1⟩, ⟨500, 22, some "Ti", 1⟩⟩ : TransitionPair).lowerEnergyTransition.wavelength ∧
      ((⟨⟨600, 26, some "Fe", 1⟩, ⟨500, 22, some "Ti", 1⟩⟩ : TransitionPair).higherEnergyTransition = ⟨500, 22, some "Ti", 1⟩ ∨
        (⟨⟨600, 26, some "Fe", 1⟩, ⟨500, 22, some "Ti", 1⟩⟩ : TransitionPair).higherEnergyTransition = ⟨600, 26, some "Fe", 1⟩) ∧
      ((⟨⟨600, 26, some "Fe", 1⟩, ⟨500, 22, some "Ti", 1⟩⟩ : TransitionPair).lowerEnergyTransition = ⟨500, 22, some "Ti", 1⟩ ∨
        (⟨⟨600, 26, some "Fe", 1⟩, ⟨500, 22, some "Ti", 1⟩⟩ : TransitionPair).lowerEnergyTransition = ⟨600, 26, some "Fe", 1⟩)) ∧
    (⟨⟨600, 26, some "Fe", 1⟩, ⟨500, 22, some "Ti", 1⟩⟩ : TransitionPair)
      = ⟨⟨600, 26, some "Fe", 1⟩, ⟨500, 22, some "Ti", 1⟩⟩ := by
  refine ⟨(transitionPair_spec ⟨500, 26, some "Fe", 1⟩ ⟨500, 26, some "Fe", 1⟩).1 rfl,
    (transitionPair_spec ⟨500, 22, some "Ti", 1⟩ ⟨600, 26, some "Fe", 1⟩).2.1 _ ?_,
    (transitionPair_spec ⟨500, 22, some "Ti", 1⟩ ⟨600, 26, some "Fe", 1⟩).2.2 _ _ ?_ ?_⟩
  · with_unfolding_all decide
  · with_unfolding_all decide
  · with_unfolding_all decide

/-! ## C5: Transition domain conventions -/

/-- Counterexample for C5: `Transition.__init__` performs no positivity check on the
wavelength and no lower bound check on the ionization state, so a `Transition` with a
negative wavelength and ionization state 0 is constructed successfully. -/
theorem transition_validation_cex :
    mkTransition (.quantity (-5) .nm) (.int 26) (.int 0)
      = .ok { wavelength := -5, atomicNumber := 26, atomicSymbol := some "Fe",
              ionizationState := 0 } ∧
    ¬(0 < (-5 : ℚ)) ∧ ¬(1 ≤ (0 : ℤ)) := by
  refine ⟨?_, by norm_num, by norm_num⟩
  with_unfolding_all decide

/-- C5 as amended: the wavelength-positivity and ionization-state conventions are not
enforced by the constructor; any wavelength quantity with length units and any integer
ionization state produce a `Transition` storing exactly the given values (the
wavelength converted to nm). -/
theorem transition_stores_given_values (v : ℚ) (n : ℤ) :
    ∃ tr, mkTransition (.quantity v .nm) (.int 26) (.int n) = .ok tr ∧
      tr.wavelength = v ∧ tr.ionizationState = n := by
  refine ⟨⟨v * 1, 26, some "Fe", n⟩, ?_, by simp, rfl⟩
  have h26 : elementsFindZ 26 = some "Fe" := by decide
  simp only [mkTransition, toNm, parseElement, parseIonizationState,
    UnytUnit.dimensionIsLength, UnytUnit.factorToNm, if_pos, h26]
  rfl

/-! ## C7: Transition wavelength units -/

/-- C7: constructing a `Transition` from a unitless wavelength raises (the
`AttributeError` from `.to` is re-raised) and produces no `Transition`, whatever the
other arguments; a wavelength carrying units of length is converted to nanometers and
stored. -/
theorem transition_units_spec :
    (∀ (x : ℚ) (e : PyElemArg) (ion : PyIonArg),
      mkTransition (.bare x) e ion = .error .attributeError) ∧
    (∀ (v : ℚ) (u : UnytUnit) (e : PyElemArg) (ion : PyIonArg) (tr : Transition),
      u.dimensionIsLength = true →
      mkTransition (.quantity v u) e ion = .ok tr →
      tr.wavelength = v * u.factorToNm) := by
  constructor
  · intro x e ion
    rfl
  · intro v u e ion tr hu h
    simp only [mkTransition, toNm, hu, if_true, Except.bind] at h
    cases he : parseElement e with
    | error err => rw [he] at h; cases h
    | ok zs =>
      rw [he] at h
      cases hi : parseIonizationState ion with
      | error err => rw [hi] at h; cases h
      | ok n =>
        rw [hi] at h
        cases h
        rfl

/-- Witness for C7: a bare float raises; 5000 Angstroms is stored as 500 nm. -/
theorem transition_units_spec_witness :
    mkTransition (.bare 500) (.int 26) (.int 1) = .error .attributeError ∧
    ({ wavelength := 500, atomicNumber := 26, atomicSymbol := some "Fe",
       ionizationState := 1 } : Transition).wavelength
      = 5000 * UnytUnit.factorToNm .angstrom := by
  refine ⟨transition_units_spec.1 500 (.int 26) (.int 1), ?_⟩
  refine transition_units_spec.2 5000 .angstrom (.int 26) (.int 1) _ rfl ?_
  with_unfolding_all decide

/-! ## C10: velocitySeparation -/

/-- Counterexample for C10: transitions with negative wavelengths (which the
constructor accepts, as shown for C5) give a successfully constructed pair whose
`velocitySeparation` is strictly negative. -/
theorem velocitySeparation_neg_cex :
    mkTransitionPair ⟨-3, 26, some "Fe", 1⟩ ⟨-5, 26, some "Fe", 1⟩
      = .ok ⟨⟨-3, 26, some "Fe", 1⟩, ⟨-5, 26, some "Fe", 1⟩⟩ ∧
    velocitySeparation ⟨⟨-3, 26, some "Fe", 1⟩, ⟨-5, 26, some "Fe", 1⟩⟩ < 0 := by
  constructor
  · with_unfolding_all decide
  · with_unfolding_all decide

/-- C10 as amended: for every successfully constructed pair whose member wavelengths
are positive (the domain convention), `velocitySeparation` equals the lower-energy
wavelength minus the higher-energy wavelength, times `c`, divided by the mean of the
two wavelengths, and the stored ordering makes it strictly positive. -/
theorem velocitySeparation_pos (t1 t2 : Transition) (p : TransitionPair)
    (hp : mkTransitionPair t1 t2 = .ok p)
    (hpos : 0 < p.higherEnergyTransition.wavelength) :
    velocitySeparation p
      = (p.lowerEnergyTransition.wavelength - p.higherEnergyTransition.wavelength)
          * speed_of_light
          / ((p.higherEnergyTransition.wavelength
              + p.lowerEnergyTransition.wavelength) / 2) ∧
    0 < velocitySeparation p := by
  have hlt := mkTransitionPair_ok_lt t1 t2 p hp
  refine ⟨rfl, ?_⟩
  unfold velocitySeparation wavelength2velocity
  apply div_pos
  · apply mul_pos (by linarith)
    norm_num [speed_of_light]
  · have : 0 < p.lowerEnergyTransition.wavelength := lt_trans hpos hlt
    linarith

/-- Witness for C10 at a concrete pair of positive-wavelength transitions. -/
theorem velocitySeparation_pos_witness :
    velocitySeparation ⟨⟨600, 26, some "Fe", 1⟩, ⟨500, 22, some "Ti", 1⟩⟩
      = ((⟨⟨600, 26, some "Fe", 1⟩, ⟨500, 22, some "Ti", 1⟩⟩ :
            TransitionPair).lowerEnergyTransition.wavelength
          - (⟨⟨600, 26, some "Fe", 1⟩, ⟨500, 22, some "Ti", 1⟩⟩ :
            TransitionPair).higherEnergyTransition.wavelength) * speed_of_light
          / (((⟨⟨600, 26, some "Fe", 1⟩, ⟨500, 22, some "Ti", 1⟩⟩ :
            TransitionPair).higherEnergyTransition.wavelength
            + (⟨⟨600, 26, some "Fe", 1⟩, ⟨500, 22, some "Ti", 1⟩⟩ :
            TransitionPair).lowerEnergyTransition.wavelength) / 2) ∧
    0 < velocitySeparation ⟨⟨600, 26, some "Fe", 1⟩, ⟨500, 22, some "Ti", 1⟩⟩ := by
  refine velocitySeparation_pos ⟨500, 22, some "Ti", 1⟩ ⟨600, 26, some "Fe", 1⟩ _ ?_ ?_
  · with_unfolding_all decide
  · norm_num

/-! ## C8: findWavelength -/

/-- C8 (code bug): on the modelled grid the wavelength 5039 Angstroms lies in the two
adjacent orders 30 and 31, and `findWavelength` with `closest_only=True` raises
`TypeError` (from `len(orders_wavelength_found_in == 2)`) instead of returning the
number of the order where the wavelength falls closest to the CCD center; a wavelength
lying in a single order is returned normally. -/
theorem findWavelength_two_orders_raises :
    ((List.range 72).filter
        (fun order => decide (demoGrid order 0 ≤ (5039 : ℚ) ∧
                              (5039 : ℚ) ≤ demoGrid order 4095))
      = [30, 31]) ∧
    findWavelength demoGrid demoGrid 5039 = .error .typeError ∧
    findWavelength demoGrid demoGrid 5020 = .ok 30 := by
  refine ⟨?_, ?_, ?_⟩
  · with_unfolding_all decide
  · with_unfolding_all decide
  · with_unfolding_all decide

/-! ## C9: wavelength2index -/

/-- Helper: in a `Pairwise (≤)` list, `getD` is monotone in the index. -/
theorem pairwise_le_getD (arr : List ℚ) (h : arr.Pairwise (fun a b => a ≤ b))
    (a b : ℕ) (hab : a ≤ b) (hb : b < arr.length) :
    arr.getD a 0 ≤ arr.getD b 0 := by
  rcases eq_or_lt_of_le hab with rfl | hlt
  · exact le_refl _
  · have ha : a < arr.length := lt_trans hlt hb
    rw [List.getD_eq_getElem _ _ ha, List.getD_eq_getElem _ _ hb]
    exact List.pairwise_iff_getElem.mp h a b ha hb hlt

/-- Helper: the scan loop of `wavelength2index`, started below the sought wavelength,
returns at the first element that is not less than it, giving that index or its
predecessor according to which element is closer (ties to the later index). -/
theorem closestIndexScan_spec (w : ℚ) (l : List ℚ) :
    ∀ (prev : ℚ) (i : ℕ), prev < w → (∃ x ∈ l, w ≤ x) →
    ∃ j, j < l.length ∧ (∀ k, k < j → l.getD k 0 < w) ∧ w ≤ l.getD j 0 ∧
      closestIndexScan w prev i l
        = some (if |l.getD j 0 - w| > |w - (if j = 0 then prev else l.getD (j - 1) 0)|
                then i + j - 1 else i + j) := by
  induction l with
  | nil => intro prev i _ hex; simp at hex
  | cons x rest ih =>
    intro prev i hprev hex
    by_cases hx : w ≤ x
    · refine ⟨0, by simp, fun k hk => absurd hk (Nat.not_lt_zero k), hx, ?_⟩
      rw [closestIndexScan, if_pos hx]
      simp
    · push_neg at hx
      obtain ⟨y, hy, hwy⟩ := hex
      have hyrest : y ∈ rest := by
        rcases List.mem_cons.mp hy with rfl | hr
        · exact absurd hwy (not_le.mpr hx)
        · exact hr
      obtain ⟨j, hjl, hpre, hge, heq⟩ := ih x (i + 1) hx ⟨y, hyrest, hwy⟩
      refine ⟨j + 1, by simpa using Nat.succ_lt_succ hjl, ?_, hge, ?_⟩
      · intro k hk
        cases k with
        | zero => exact hx
        | succ k => exact hpre k (Nat.lt_of_succ_lt_succ hk)
      · rw [closestIndexScan, if_neg (not_le.mpr hx), heq]
        have e1 : (x :: rest).getD (j + 1) 0 = rest.getD j 0 := rfl
        have e2 : (if j + 1 = 0 then prev else (x :: rest).getD (j + 1 - 1) 0)
            = (if j = 0 then x else rest.getD (j - 1) 0) := by
          cases j with
          | zero => rfl
          | succ k => rfl
        rw [e1, e2]
        congr 1
        split_ifs <;> omega

/-- C9: for a nonempty monotonically increasing wavelength array, a query strictly
between the first and last elements makes `wavelength2index` return the index of an
element closest in value to the query (it picks between the first element not less
than the query and its predecessor); any other query raises `RuntimeError`. -/
theorem wavelength2index_spec (wavelength : ℚ) (arr : List ℚ)
    (hmono : arr.Pairwise (fun a b => a ≤ b)) (hne : arr ≠ []) :
    (¬(arr.getD 0 0 < wavelength ∧ wavelength < arr.getLastD 0) →
      wavelength2index wavelength arr = .error .runtimeError) ∧
    ((arr.getD 0 0 < wavelength ∧ wavelength < arr.getLastD 0) →
      ∃ i, wavelength2index wavelength arr = .ok (some i) ∧ i < arr.length ∧
        ∀ j, j < arr.length →
          |arr.getD i 0 - wavelength| ≤ |arr.getD j 0 - wavelength|) := by
  match arr, hne with
  | w0 :: rest, _ =>
  constructor
  · intro hnot
    have hnot' : ¬(w0 < wavelength ∧ wavelength < (w0 :: rest).getLastD 0) := hnot
    rw [wavelength2index, if_neg hnot']
  · rintro ⟨h0, hl⟩
    cases rest with
    | nil =>
      exfalso
      have : (w0 :: ([] : List ℚ)).getLastD 0 = w0 := rfl
      rw [this] at hl
      exact absurd (lt_trans h0 hl) (lt_irrefl w0)
    | cons r1 rest1 =>
      have hLmem : (w0 :: r1 :: rest1).getLastD 0 ∈ r1 :: rest1 := by
        rw [List.getLastD_cons, List.getLastD_cons]
        exact List.getLastD_mem_cons _ _
      obtain ⟨j, hjl, hpre, hge, heq⟩ :=
        closestIndexScan_spec wavelength (r1 :: rest1) w0 1 h0
          ⟨(w0 :: r1 :: rest1).getLastD 0, hLmem, le_of_lt hl⟩
      have hlen : j + 1 < (w0 :: r1 :: rest1).length := by
        simpa using Nat.succ_lt_succ hjl
      have hAj1 : (w0 :: r1 :: rest1).getD (j + 1) 0 = (r1 :: rest1).getD j 0 := rfl
      have hprevEq : (if j = 0 then w0 else (r1 :: rest1).getD (j - 1) 0)
          = (w0 :: r1 :: rest1).getD j 0 := by
        cases j with
        | zero => rfl
        | succ k => rfl
      have hAk : ∀ k, k ≤ j → (w0 :: r1 :: rest1).getD k 0 < wavelength := by
        intro k hk
        cases k with
        | zero => exact h0
        | succ k => exact hpre k (Nat.lt_of_succ_le hk)
      have hwj1 : wavelength ≤ (w0 :: r1 :: rest1).getD (j + 1) 0 := hge
      have hmain : wavelength2index wavelength (w0 :: r1 :: rest1)
          = .ok (closestIndexScan wavelength ((w0 :: r1 :: rest1).getLastD 0) 0
              (w0 :: r1 :: rest1)) := by
        have hin' : w0 < wavelength ∧ wavelength < (w0 :: r1 :: rest1).getLastD 0 :=
          ⟨h0, hl⟩
        rw [wavelength2index, if_pos hin']
      have hstep : closestIndexScan wavelength ((w0 :: r1 :: rest1).getLastD 0) 0
          (w0 :: r1 :: rest1)
          = closestIndexScan wavelength w0 1 (r1 :: rest1) := by
        have h0' : ¬(w0 ≥ wavelength) := not_le.mpr h0
        rw [closestIndexScan, if_neg h0']
      rw [hmain, hstep, heq]
      rw [hprevEq, ← hAj1]
      have hidx1 : 1 + j - 1 = j := by omega
      have hidx2 : 1 + j = j + 1 := by omega
      rw [hidx1, hidx2]
      set A := fun k => (w0 :: r1 :: rest1).getD k 0 with hA
      have habove : ∀ jj, j + 1 ≤ jj → jj < (w0 :: r1 :: rest1).length →
          |A jj - wavelength| = A jj - wavelength ∧ A (j + 1) - wavelength ≤ A jj - wavelength := by
        intro jj h1 h2
        have hmo : A (j + 1) ≤ A jj := pairwise_le_getD _ hmono (j + 1) jj h1 h2
        have : wavelength ≤ A jj := le_trans hwj1 hmo
        exact ⟨abs_of_nonneg (by linarith), by linarith⟩
      have hbelow : ∀ jj, jj ≤ j →
          |A jj - wavelength| = wavelength - A jj ∧ wavelength - A j ≤ wavelength - A jj := by
        intro jj h1
        have hjlt : A jj < wavelength := hAk jj h1
        have hmo : A jj ≤ A j :=
          pairwise_le_getD _ hmono jj j h1 (Nat.lt_of_succ_lt hlen)
        constructor
        · rw [abs_of_neg (by linarith : A jj - wavelength < 0)]
          ring
        · linarith
      have hAjlt : A j < wavelength := hAk j (le_refl j)
      have habsj : |wavelength - A j| = wavelength - A j := abs_of_pos (by linarith)
      have habsj1 : |A (j + 1) - wavelength| = A (j + 1) - wavelength :=
        abs_of_nonneg (by linarith)
      split_ifs with hC
      · -- the predecessor is strictly closer: index j is returned
        refine ⟨j, rfl, Nat.lt_of_succ_lt hlen, ?_⟩
        intro jj hjj
        rcases le_or_lt jj j with hle | hgt
        · obtain ⟨e1, e2⟩ := hbelow jj hle
          obtain ⟨e3, _⟩ := hbelow j (le_refl j)
          rw [e1, e3]
          exact e2
        · obtain ⟨e1, e2⟩ := habove jj hgt hjj
          obtain ⟨e3, _⟩ := hbelow j (le_refl j)
          rw [e1, e3]
          rw [habsj, habsj1] at hC
          linarith
      · -- index j+1 is at least as close: it is returned
        refine ⟨j + 1, rfl, hlen, ?_⟩
        intro jj hjj
        rcases le_or_lt jj j with hle | hgt
        · obtain ⟨e1, e2⟩ := hbelow jj hle
          rw [e1, habsj1]
          rw [habsj, habsj1] at hC
          push_neg at hC
          linarith
        · obtain ⟨e1, e2⟩ := habove jj hgt hjj
          rw [e1, habsj1]
          exact e2

/-- Witness for C9 on the concrete array `[1, 2, 4]` with query 3: index 2 is
returned (the tie between elements 2 and 4 goes to the later index). -/
theorem wavelength2index_spec_witness :
    (¬(([(1 : ℚ), 2, 4]).getD 0 0 < 3 ∧ (3 : ℚ) < ([(1 : ℚ), 2, 4]).getLastD 0) →
      wavelength2index 3 [(1 : ℚ), 2, 4] = .error .runtimeError) ∧
    ((([(1 : ℚ), 2, 4]).getD 0 0 < 3 ∧ (3 : ℚ) < ([(1 : ℚ), 2, 4]).getLastD 0) →
      ∃ i, wavelength2index 3 [(1 : ℚ), 2, 4] = .ok (some i) ∧
        i < ([(1 : ℚ), 2, 4]).length ∧
        ∀ j, j < ([(1 : ℚ), 2, 4]).length →
          |([(1 : ℚ), 2, 4]).getD i 0 - 3| ≤ |([(1 : ℚ), 2, 4]).getD j 0 - 3|) :=
  wavelength2index_spec 3 [(1 : ℚ), 2, 4]
    (by norm_num [List.pairwise_cons]) (by simp)

/-! ## C6: air2vacESO RuntimeError behaviour -/

/-- Helper: restarting the iterate sequence one step in advances the index. -/
theorem edlenSeq_shift (air start : ℚ) (k : ℕ) :
    edlenSeq air (air * air_indexEdlen53 start) k = edlenSeq air start (k + 1) := by
  induction k with
  | zero => rfl
  | succ k ih => rw [edlenSeq, ih]; rfl

/-- Helper: the loop raises (returns `none`) exactly when every `while` test up to the
`fuel`-th observes a difference above the tolerance. -/
theorem air2vacLoop_none_iff (air : ℚ) :
    ∀ (fuel : ℕ) (old start : ℚ),
      (air2vacLoop air old start fuel = none ↔
        ∀ j, j ≤ fuel → tolerance < |edlenPrev air old start j - edlenSeq air start j|) := by
  intro fuel
  induction fuel with
  | zero =>
    intro old start
    rw [air2vacLoop]
    constructor
    · intro h j hj
      interval_cases j
      by_cases hc : |old - start| ≤ tolerance
      · rw [if_pos hc] at h; cases h
      · simpa [edlenPrev, edlenSeq] using not_le.mp hc
    · intro h
      have h0 := h 0 (le_refl 0)
      simp only [edlenPrev, edlenSeq] at h0
      rw [if_neg (not_le.mpr h0)]
  | succ fuel ih =>
    intro old start
    rw [air2vacLoop]
    by_cases hc : |old - start| ≤ tolerance
    · rw [if_pos hc]
      constructor
      · intro h; cases h
      · intro h
        have h0 := h 0 (Nat.zero_le _)
        simp only [edlenPrev, edlenSeq] at h0
        exact absurd hc (not_le.mpr h0)
    · rw [if_neg hc]
      rw [ih start (air * air_indexEdlen53 start)]
      constructor
      · intro h j hj
        cases j with
        | zero =>
          simpa [edlenPrev, edlenSeq] using not_le.mp hc
        | succ j =>
          have hj' : j ≤ fuel := Nat.le_of_succ_le_succ hj
          have := h j hj'
          cases j with
          | zero => simpa [edlenPrev, edlenSeq] using this
          | succ j' =>
            rw [edlenPrev, edlenSeq_shift, edlenSeq_shift] at this
            exact this
      · intro h j hj
        cases j with
        | zero =>
          have := h 1 (Nat.succ_le_succ (Nat.zero_le _))
          simpa [edlenPrev, edlenSeq] using this
        | succ j' =>
          have := h (j' + 2) (by omega)
          rw [edlenPrev, edlenSeq_shift, edlenSeq_shift]
          exact this

/-- Helper: the elementwise conversion loop raises exactly when the per-element loop
of some array element raises. -/
theorem air2vacESO_none_iff (ws : List ℚ) :
    air2vacESO ws = none ↔ ∃ w ∈ ws, air2vacElem w = none := by
  induction ws with
  | nil => simp [air2vacESO]
  | cons w rest ih =>
    rw [air2vacESO]
    cases he : air2vacElem w with
    | none => simp [he]
    | some v =>
      cases hr : air2vacESO rest with
      | none =>
        obtain ⟨x, hx, hn⟩ := ih.mp hr
        simp only [he, hr, Option.bind_eq_bind, Option.some_bind, Option.none_bind]
        constructor
        · intro _
          exact ⟨x, List.mem_cons_of_mem w hx, hn⟩
        · intro _
          trivial
      | some vs =>
        simp only [he, hr, Option.bind_eq_bind, Option.some_bind]
        constructor
        · intro h; cases h
        · rintro ⟨x, hx, hnone⟩
          rcases List.mem_cons.mp hx with rfl | hxr
          · rw [he] at hnone; cases hnone
          · have hcontra : air2vacESO rest = none := ih.mpr ⟨x, hxr, hnone⟩
            rw [hr] at hcontra
            cases hcontra

/-- C6: `air2vacESO` raises its `RuntimeError('Max number of iterations exceeded!')`
(modelled by `none`) exactly when the fixed-point iteration of some input wavelength
still sees successive iterates differing by more than the tolerance at every one of
the `while` tests 0 through `num_iter` = 100 (i.e. it has not converged within 100
iterations); when every element converges within 100 iterations it returns
normally. -/
theorem air2vacESO_raises_iff (ws : List ℚ) :
    air2vacESO ws = none ↔
      ∃ w ∈ ws, ∀ k, k ≤ num_iter →
        tolerance < |edlenPrev w 0 w k - edlenSeq w w k| := by
  rw [air2vacESO_none_iff]
  constructor
  · rintro ⟨w, hw, h⟩
    exact ⟨w, hw, (air2vacLoop_none_iff w num_iter 0 w).mp h⟩
  · rintro ⟨w, hw, h⟩
    exact ⟨w, hw, (air2vacLoop_none_iff w num_iter 0 w).mpr h⟩

/-! ## C1: air2vacESO fixed-point property -/

/-- Helper: a value returned by the conversion loop is either the unchanged start
value (when the very first `while` test already passes) or of the form
`air * air_indexEdlen53 prev` for a previous iterate `prev` within tolerance of it. -/
theorem air2vacLoop_ok (air : ℚ) :
    ∀ (fuel : ℕ) (old start v : ℚ), air2vacLoop air old start fuel = some v →
      (v = start ∧ |old - start| ≤ tolerance) ∨
      (∃ prev, v = air * air_indexEdlen53 prev ∧ |prev - v| ≤ tolerance) := by
  intro fuel
  induction fuel with
  | zero =>
    intro old start v h
    rw [air2vacLoop] at h
    by_cases hc : |old - start| ≤ tolerance
    · rw [if_pos hc] at h
      cases h
      exact Or.inl ⟨rfl, hc⟩
    · rw [if_neg hc] at h
      cases h
  | succ fuel ih =>
    intro old start v h
    rw [air2vacLoop] at h
    by_cases hc : |old - start| ≤ tolerance
    · rw [if_pos hc] at h
      cases h
      exact Or.inl ⟨rfl, hc⟩
    · rw [if_neg hc] at h
      rcases ih start (air * air_indexEdlen53 start) v h with ⟨rfl, hd⟩ | hr
      · exact Or.inr ⟨start, rfl, hd⟩
      · exact Or.inr hr

/-- Helper: a successful `air2vacESO` run returns a list of the same length whose
elements are the per-element conversions. -/
theorem air2vacESO_ok_parts (ws : List ℚ) :
    ∀ vs, air2vacESO ws = some vs →
      vs.length = ws.length ∧
      ∀ i, i < ws.length → air2vacElem (ws.getD i 0) = some (vs.getD i 0) := by
  induction ws with
  | nil =>
    intro vs h
    rw [air2vacESO] at h
    cases h
    exact ⟨rfl, fun i hi => absurd hi (Nat.not_lt_zero i)⟩
  | cons w rest ih =>
    intro vs h
    rw [air2vacESO] at h
    cases he : air2vacElem w with
    | none => rw [he] at h; cases h
    | some v =>
      rw [he] at h
      cases hr : air2vacESO rest with
      | none => rw [hr] at h; cases h
      | some vs1 =>
        rw [hr] at h
        cases h
        obtain ⟨hlen, helem⟩ := ih vs1 hr
        refine ⟨by simp [hlen], ?_⟩
        intro i hi
        cases i with
        | zero => exact he
        | succ i => exact helem i (by simpa using hi)

/-- C1 as amended: whenever `air2vacESO` (with its unit handling) returns, the output
array has the same shape (length) as the input and is in the input's original units,
and every element whose air wavelength exceeds the tolerance in magnitude is a
converged fixed-point iterate: its value in Angstroms is `air * n(prev)` for some
previous iterate `prev` lying within the tolerance `2e-12` of it. -/
theorem air2vacESO_fixed_point (to_angstrom : ℚ) (ws vs : List ℚ)
    (hu : to_angstrom ≠ 0)
    (h : air2vacESO_withUnits to_angstrom ws = some vs)
    (hw : ∀ w ∈ ws, tolerance < |w * to_angstrom|) :
    vs.length = ws.length ∧
    ∀ i, i < ws.length → ∃ prev,
      vs.getD i 0 * to_angstrom
        = ws.getD i 0 * to_angstrom * air_indexEdlen53 prev ∧
      |prev - vs.getD i 0 * to_angstrom| ≤ tolerance := by
  rw [air2vacESO_withUnits] at h
  cases ha : air2vacESO (ws.map (fun w => w * to_angstrom)) with
  | none => rw [ha] at h; cases h
  | some vsA =>
    rw [ha] at h
    cases h
    obtain ⟨hlen, helem⟩ := air2vacESO_ok_parts _ vsA ha
    have hlen2 : vsA.length = ws.length := by simpa using hlen
    constructor
    · simpa using hlen2
    · intro i hi
      have hmapA : (ws.map (fun w => w * to_angstrom)).getD i 0
          = ws.getD i 0 * to_angstrom := by
        have := getD_map_of_lt (fun w => w * to_angstrom) ws i 0 hi
        simpa using this
      have hmapV : (vsA.map (fun v => v / to_angstrom)).getD i 0
          = vsA.getD i 0 / to_angstrom := by
        have := getD_map_of_lt (fun v => v / to_angstrom) vsA i 0 (by omega)
        simpa using this
      have helemi := helem i (by simpa using hi)
      rw [hmapA] at helemi
      have hval : vsA.getD i 0 / to_angstrom * to_angstrom = vsA.getD i 0 :=
        div_mul_cancel₀ _ hu
      rcases air2vacLoop_ok _ num_iter 0 _ _ helemi with ⟨hv, hd⟩ | ⟨prev, hv, hd⟩
      · exfalso
        rw [zero_sub, abs_neg] at hd
        have hmem : ws.getD i 0 ∈ ws := by
          rw [List.getD_eq_getElem _ _ hi]
          exact List.getElem_mem hi
        exact absurd hd (not_le.mpr (hw _ hmem))
      · refine ⟨prev, ?_, ?_⟩
        · rw [hmapV, hval, hv]
        · rw [hmapV, hval]
          exact hd

/-! ## Analysis of the Edlen refraction index -/

/-- The Edlen index at default temperature and pressure, as a function of
`s = (1e4/l)^2`. -/
theorem air_indexEdlen53_eq (l : ℚ) :
    air_indexEdlen53 l = edlenN ((1e4 / l) ^ 2) := rfl

/-- The Morton 2000 air conversion as a function of `s^2`. -/
theorem vac2airMorton00_eq (x : ℚ) :
    vac2airMorton00 x = x / mortonN ((1e4 / x) ^ 2) := rfl

/-- The IAU vacuum conversion as a function of `s^2`. -/
theorem air2vacMortonIAU_eq (x : ℚ) :
    air2vacMortonIAU x = x * mortonIAUN ((1e4 / x) ^ 2) := rfl

/-- The leading Edlen coefficient is positive. -/
theorem edlenK_pos : 0 < edlenK := by norm_num [edlenK]

/-- For very large `s` (far outside the physical range, as happens for wavelengths
near 0) the Edlen index still exceeds 1: the two dispersion terms are negative but
negligible against 64.328. -/
theorem edlenN_gt_one_large (s : ℚ) (hs : 1e31 ≤ s) : 1 < edlenN s := by
  have h1 : (0 : ℚ) < s - 146 := by linarith
  have h2 : (0 : ℚ) < s - 41 := by linarith
  have hA : -(1e-20) ≤ 29498.1 / (146 - s) := by
    rw [show (146 - s : ℚ) = -(s - 146) by ring, div_neg, neg_le_neg_iff]
    rw [div_le_iff h1]
    nlinarith
  have hB : -(1e-20) ≤ 255.4 / (41 - s) := by
    rw [show (41 - s : ℚ) = -(s - 41) by ring, div_neg, neg_le_neg_iff]
    rw [div_le_iff h2]
    nlinarith
  have hsum : (0 : ℚ) < 64.328 + 29498.1 / (146 - s) + 255.4 / (41 - s) := by
    nlinarith
  have := mul_pos edlenK_pos hsum
  rw [edlenN]
  linarith

/-- Helper: when the first `while` test already passes, the loop returns the start
value unchanged, running zero iterations. -/
theorem air2vacLoop_immediate (air old start : ℚ) (fuel : ℕ)
    (h : |old - start| ≤ tolerance) : air2vacLoop air old start fuel = some start := by
  cases fuel with
  | zero => rw [air2vacLoop, if_pos h]
  | succ fuel => rw [air2vacLoop, if_pos h]

/-- Counterexample for C1: for the input array `[1e-12]` (in Angstroms) the first
`while` test already passes (`|0 - 1e-12| ≤ 2e-12`), so `air2vacESO` returns the
wavelength unchanged after zero iterations, and the returned value is *not* of the
form `air * n(prev)` for any `prev` within tolerance of it — the claimed fixed-point
property fails for air wavelengths not exceeding the tolerance. -/
theorem air2vacESO_below_tolerance_cex :
    air2vacESO_withUnits 1 [1e-12] = some [1e-12] ∧
    ¬∃ prev : ℚ, (1e-12 : ℚ) = 1e-12 * air_indexEdlen53 prev ∧
        |prev - 1e-12| ≤ tolerance := by
  constructor
  · have habs : |(0 : ℚ) - 1e-12 * 1| ≤ tolerance := by
      rw [zero_sub, abs_neg, abs_of_pos (by norm_num), tolerance]
      norm_num
    have helem : air2vacElem (1e-12 * 1) = some (1e-12 * 1) :=
      air2vacLoop_immediate _ _ _ _ habs
    rw [air2vacESO_withUnits]
    rw [show [(1e-12 : ℚ)].map (fun w => w * 1) = [1e-12 * 1] from rfl]
    rw [air2vacESO, helem]
    rw [air2vacESO]
    show some ([(1e-12 : ℚ) * 1].map (fun v => v / 1)) = some [1e-12]
    norm_num
  · rintro ⟨p, h1, h2⟩
    have hn : air_indexEdlen53 p = 1 := by
      have h3 : (1e-12 : ℚ) * 1 = 1e-12 * air_indexEdlen53 p := by linarith
      exact (mul_left_cancel₀ (by norm_num : (1e-12 : ℚ) ≠ 0) h3).symm
    have hp := abs_le.mp h2
    rw [tolerance] at hp
    have hplo : -(1e-12) ≤ p := by
      have := hp.1
      norm_num at this ⊢
      linarith
    have hphi : p ≤ 3e-12 := by
      have := hp.2
      norm_num at this ⊢
      linarith
    have hgt : 1 < air_indexEdlen53 p := by
      rw [air_indexEdlen53_eq]
      by_cases hp0 : p = 0
      · subst hp0
        norm_num [edlenN, edlenK]
      · have hps : 0 < p ^ 2 := by positivity
        have hpsmall : p ^ 2 ≤ 9e-24 := by nlinarith
        apply edlenN_gt_one_large
        rw [div_pow]
        rw [le_div_iff hps]
        nlinarith
    rw [hn] at hgt
    exact lt_irrefl 1 hgt

/-- Witness for C1 (amended) at the input `[500]` nanometers (unit factor 10 to
Angstroms): the conversion succeeds and the theorem applies. -/
theorem air2vacESO_fixed_point_witness :
    ∃ vs, air2vacESO_withUnits 10 [500] = some vs ∧
      vs.length = [(500 : ℚ)].length ∧
      ∀ i, i < [(500 : ℚ)].length → ∃ prev,
        vs.getD i 0 * 10 = [(500 : ℚ)].getD i 0 * 10 * air_indexEdlen53 prev ∧
        |prev - vs.getD i 0 * 10| ≤ tolerance := by
  have hsome : (air2vacESO_withUnits 10 [500]).isSome = true := by
    with_unfolding_all decide
  obtain ⟨vs, hvs⟩ := Option.isSome_iff_exists.mp hsome
  obtain ⟨h1, h2⟩ := air2vacESO_fixed_point 10 [500] vs (by norm_num) hvs
    (by
      intro w hwm
      rw [List.mem_singleton] at hwm
      subst hwm
      rw [tolerance, abs_of_pos (by norm_num)]
      norm_num)
  exact ⟨vs, hvs, h1, h2⟩

/-! ## C2: round-trip analysis over the HARPS optical range

The wavelength range used below, 3780 to 6912 Angstroms, covers the HARPS optical
range; the iterates of the conversion loop stay within the slightly wider interval
[3770, 6915], over which `s = (1e4/l)^2` lies in (2, 7.1). -/

/-- Range of `s = (1e4/x)^2` over the widened wavelength interval. -/
theorem sq_range (x : ℚ) (h1 : 3770 ≤ x) (h2 : x ≤ 6915) :
    2 < (1e4 / x) ^ 2 ∧ (1e4 / x) ^ 2 < 7.1 := by
  have hx : (0 : ℚ) < x := by linarith
  have hx2 : (0 : ℚ) < x ^ 2 := by positivity
  rw [div_pow]
  constructor
  · rw [lt_div_iff hx2]
    nlinarith
  · rw [div_lt_iff hx2]
    nlinarith

/-- Monotonicity and a Lipschitz bound for `s = (1e4/x)^2` in the wavelength. -/
theorem sdiff_bound (x y : ℚ) (h1 : 3770 ≤ x) (h2 : x ≤ y) (h3 : y ≤ 6915) :
    0 ≤ (1e4 / x) ^ 2 - (1e4 / y) ^ 2 ∧
    (1e4 / x) ^ 2 - (1e4 / y) ^ 2 ≤ (7 / 1000) * (y - x) := by
  have hx : (0 : ℚ) < x := by linarith
  have hy : (0 : ℚ) < y := by linarith
  have hx2 : (0 : ℚ) < x ^ 2 := by positivity
  have hy2 : (0 : ℚ) < y ^ 2 := by positivity
  rw [div_pow, div_pow]
  have key : (1e4 : ℚ) ^ 2 / x ^ 2 - 1e4 ^ 2 / y ^ 2
      = 1e8 * (y ^ 2 - x ^ 2) / (x ^ 2 * y ^ 2) := by
    field_simp
    ring
  rw [key]
  constructor
  · apply div_nonneg _ (by positivity)
    nlinarith
  · rw [div_le_iff₀ (by positivity)]
    have hxx : 3770 ^ 2 ≤ x ^ 2 := by nlinarith
    have hyy : 3770 ^ 2 ≤ y ^ 2 := by nlinarith
    have hprod : (3770 : ℚ) ^ 2 * 3770 ^ 2 ≤ x ^ 2 * y ^ 2 := by nlinarith
    have hsum : x + y ≤ 13830 := by linarith
    nlinarith [mul_nonneg (sub_nonneg.mpr h2) (sub_nonneg.mpr hprod),
      mul_le_mul_of_nonneg_left hprod (mul_nonneg (by norm_num : (0:ℚ) ≤ 7/1000)
        (sub_nonneg.mpr h2))]

/-- Bounds for the Edlen index over the physical range of `s`. -/
theorem edlenN_bounds (s : ℚ) (h1 : 2 < s) (h2 : s < 7.1) :
    1 < edlenN s ∧ edlenN s < 1 + 3 / 10000 := by
  have d1 : (138.9 : ℚ) < 146 - s := by linarith
  have d1' : (146 : ℚ) - s < 144 := by linarith
  have d2 : (33.9 : ℚ) < 41 - s := by linarith
  have d2' : (41 : ℚ) - s < 39 := by linarith
  have hA : (29498.1 : ℚ) / (146 - s) < 29498.1 / 138.9 :=
    (div_lt_div_left (by norm_num) (by linarith) (by norm_num)).mpr d1
  have hA' : (29498.1 : ℚ) / 144 < 29498.1 / (146 - s) :=
    (div_lt_div_left (by norm_num) (by norm_num) (by linarith)).mpr d1'
  have hB : (255.4 : ℚ) / (41 - s) < 255.4 / 33.9 :=
    (div_lt_div_left (by norm_num) (by linarith) (by norm_num)).mpr d2
  have hB' : (255.4 : ℚ) / 39 < 255.4 / (41 - s) :=
    (div_lt_div_left (by norm_num) (by norm_num) (by linarith)).mpr d2'
  have hSlo : (64.328 : ℚ) + 29498.1 / 144 + 255.4 / 39
      < 64.328 + 29498.1 / (146 - s) + 255.4 / (41 - s) := by linarith
  have hShi : (64.328 : ℚ) + 29498.1 / (146 - s) + 255.4 / (41 - s)
      < 64.328 + 29498.1 / 138.9 + 255.4 / 33.9 := by linarith
  constructor
  · have h0 : (0 : ℚ) < 64.328 + 29498.1 / (146 - s) + 255.4 / (41 - s) := by
      have : (0 : ℚ) < 64.328 + 29498.1 / 144 + 255.4 / 39 := by norm_num
      linarith
    have := mul_pos edlenK_pos h0
    rw [edlenN]
    linarith
  · have hup := mul_lt_mul_of_pos_left hShi edlenK_pos
    have hfin : edlenK * (64.328 + 29498.1 / 138.9 + 255.4 / 33.9) < 3 / 10000 := by
      norm_num [edlenK]
    rw [edlenN]
    linarith

/-- Lipschitz bound for the Edlen index in `s` over the physical range. -/
theorem edlenN_lipschitz (s s' : ℚ) (h1 : 2 < s') (h2 : s' ≤ s) (h3 : s < 7.1) :
    0 ≤ edlenN s - edlenN s' ∧ edlenN s - edlenN s' ≤ (2 / 1000000) * (s - s') := by
  have d1 : (138.9 : ℚ) < 146 - s := by linarith
  have d1' : (138.9 : ℚ) < 146 - s' := by linarith
  have d2 : (33.9 : ℚ) < 41 - s := by linarith
  have d2' : (33.9 : ℚ) < 41 - s' := by linarith
  have e1 : (29498.1 : ℚ) / (146 - s) - 29498.1 / (146 - s')
      = 29498.1 * (s - s') / ((146 - s) * (146 - s')) := by
    rw [div_sub_div _ _ (by linarith) (by linarith)]
    ring_nf
  have e2 : (255.4 : ℚ) / (41 - s) - 255.4 / (41 - s')
      = 255.4 * (s - s') / ((41 - s) * (41 - s')) := by
    rw [div_sub_div _ _ (by linarith) (by linarith)]
    ring_nf
  have hd1 : (0 : ℚ) < (146 - s) * (146 - s') := by nlinarith
  have hd2 : (0 : ℚ) < (41 - s) * (41 - s') := by nlinarith
  have hnum1 : (0 : ℚ) ≤ 29498.1 * (s - s') := by nlinarith
  have hnum2 : (0 : ℚ) ≤ 255.4 * (s - s') := by nlinarith
  have hb1 : 29498.1 * (s - s') / ((146 - s) * (146 - s'))
      ≤ 29498.1 * (s - s') / (138.9 * 138.9) := by
    rcases eq_or_lt_of_le hnum1 with hz | hpos
    · rw [← hz]
      simp
    · exact le_of_lt ((div_lt_div_left hpos hd1 (by norm_num)).mpr (by nlinarith))
  have hb2 : 255.4 * (s - s') / ((41 - s) * (41 - s'))
      ≤ 255.4 * (s - s') / (33.9 * 33.9) := by
    rcases eq_or_lt_of_le hnum2 with hz | hpos
    · rw [← hz]
      simp
    · exact le_of_lt ((div_lt_div_left hpos hd2 (by norm_num)).mpr (by nlinarith))
  have hdiff : edlenN s - edlenN s'
      = edlenK * ((29498.1 / (146 - s) - 29498.1 / (146 - s'))
        + (255.4 / (41 - s) - 255.4 / (41 - s'))) := by
    rw [edlenN, edlenN]
    ring
  constructor
  · rw [hdiff, e1, e2]
    apply mul_nonneg (le_of_lt edlenK_pos)
    have t1 : (0 : ℚ) ≤ 29498.1 * (s - s') / ((146 - s) * (146 - s')) :=
      div_nonneg hnum1 (le_of_lt hd1)
    have t2 : (0 : ℚ) ≤ 255.4 * (s - s') / ((41 - s) * (41 - s')) :=
      div_nonneg hnum2 (le_of_lt hd2)
    linarith
  · rw [hdiff, e1, e2]
    have hc1 : 29498.1 * (s - s') / (138.9 * 138.9)
        = (29498.1 / (138.9 * 138.9)) * (s - s') := by ring
    have hc2 : 255.4 * (s - s') / (33.9 * 33.9)
        = (255.4 / (33.9 * 33.9)) * (s - s') := by ring
    have hsum : (29498.1 * (s - s') / ((146 - s) * (146 - s')))
        + (255.4 * (s - s') / ((41 - s) * (41 - s')))
        ≤ (29498.1 / (138.9 * 138.9) + 255.4 / (33.9 * 33.9)) * (s - s') := by
      rw [hc1] at hb1
      rw [hc2] at hb2
      nlinarith
    have hKconst : edlenK * (29498.1 / (138.9 * 138.9) + 255.4 / (33.9 * 33.9))
        ≤ 2 / 1000000 := by
      norm_num [edlenK]
    have hss : (0 : ℚ) ≤ s - s' := by linarith
    calc edlenK * ((29498.1 * (s - s') / ((146 - s) * (146 - s')))
          + (255.4 * (s - s') / ((41 - s) * (41 - s'))))
        ≤ edlenK * ((29498.1 / (138.9 * 138.9) + 255.4 / (33.9 * 33.9)) * (s - s')) :=
          mul_le_mul_of_nonneg_left hsum (le_of_lt edlenK_pos)
      _ = (edlenK * (29498.1 / (138.9 * 138.9) + 255.4 / (33.9 * 33.9))) * (s - s') := by
          ring
      _ ≤ (2 / 1000000) * (s - s') := mul_le_mul_of_nonneg_right hKconst hss

/-- The Edlen index bounds in terms of the wavelength. -/
theorem air_index_bounds (x : ℚ) (h1 : 3770 ≤ x) (h2 : x ≤ 6915) :
    1 < air_indexEdlen53 x ∧ air_indexEdlen53 x < 1 + 3 / 10000 := by
  rw [air_indexEdlen53_eq]
  obtain ⟨hs1, hs2⟩ := sq_range x h1 h2
  exact edlenN_bounds _ hs1 hs2

/-- The Edlen index is decreasing and Lipschitz in the wavelength. -/
theorem air_index_lipschitz (x y : ℚ) (h1 : 3770 ≤ x) (h2 : x ≤ y) (h3 : y ≤ 6915) :
    0 ≤ air_indexEdlen53 x - air_indexEdlen53 y ∧
    air_indexEdlen53 x - air_indexEdlen53 y ≤ (y - x) / 50000000 := by
  rw [air_indexEdlen53_eq, air_indexEdlen53_eq]
  obtain ⟨hs1, hs2⟩ := sq_range x h1 (by linarith)
  obtain ⟨hs1', hs2'⟩ := sq_range y (by linarith) h3
  obtain ⟨hm, hb⟩ := sdiff_bound x y h1 h2 h3
  obtain ⟨hl1, hl2⟩ := edlenN_lipschitz ((1e4 / x) ^ 2) ((1e4 / y) ^ 2) hs1'
    (by linarith) hs2
  refine ⟨hl1, le_trans hl2 ?_⟩
  calc (2 / 1000000 : ℚ) * ((1e4 / x) ^ 2 - (1e4 / y) ^ 2)
      ≤ (2 / 1000000) * ((7 / 1000) * (y - x)) :=
        mul_le_mul_of_nonneg_left hb (by norm_num)
    _ ≤ (y - x) / 50000000 := by nlinarith

/-- Helper: for air wavelengths in the HARPS range all loop iterates stay in the
widened interval, and a returned value is a converged fixed-point iterate whose
previous iterate also lies in that interval. -/
theorem air2vacLoop_ok_range (air : ℚ) (ha1 : 3780 ≤ air) (ha2 : air ≤ 6912) :
    ∀ (fuel : ℕ) (old start v : ℚ), 3770 ≤ start → start ≤ 6915 →
      air2vacLoop air old start fuel = some v →
      (v = start ∧ |old - start| ≤ tolerance) ∨
      (∃ p, 3770 ≤ p ∧ p ≤ 6915 ∧ v = air * air_indexEdlen53 p ∧
        |p - v| ≤ tolerance) := by
  intro fuel
  induction fuel with
  | zero =>
    intro old start v hr1 hr2 h
    rw [air2vacLoop] at h
    by_cases hc : |old - start| ≤ tolerance
    · rw [if_pos hc] at h
      cases h
      exact Or.inl ⟨rfl, hc⟩
    · rw [if_neg hc] at h
      cases h
  | succ fuel ih =>
    intro old start v hr1 hr2 h
    rw [air2vacLoop] at h
    by_cases hc : |old - start| ≤ tolerance
    · rw [if_pos hc] at h
      cases h
      exact Or.inl ⟨rfl, hc⟩
    · rw [if_neg hc] at h
      obtain ⟨hn1, hn2⟩ := air_index_bounds start hr1 hr2
      have hnext1 : 3770 ≤ air * air_indexEdlen53 start := by nlinarith
      have hnext2 : air * air_indexEdlen53 start ≤ 6915 := by nlinarith
      rcases ih start (air * air_indexEdlen53 start) v hnext1 hnext2 h with
        ⟨rfl, hd⟩ | hr
      · exact Or.inr ⟨start, hr1, hr2, rfl, hd⟩
      · exact Or.inr hr

/-- Helper: range and fixed-point facts for a successful elementwise conversion of a
HARPS-range air wavelength. -/
theorem air2vacElem_range (air v : ℚ) (ha1 : 3780 ≤ air) (ha2 : air ≤ 6912)
    (h : air2vacElem air = some v) :
    ∃ p, 3770 ≤ p ∧ p ≤ 6915 ∧ v = air * air_indexEdlen53 p ∧
      |p - v| ≤ tolerance ∧ 3770 ≤ v ∧ v ≤ 6915 := by
  rcases air2vacLoop_ok_range air ha1 ha2 num_iter 0 air v (by linarith) (by linarith) h
    with ⟨hv, hd⟩ | ⟨p, hp1, hp2, hv, hd⟩
  · exfalso
    rw [zero_sub, abs_neg, abs_of_pos (by linarith), tolerance] at hd
    norm_num at hd
    linarith
  · obtain ⟨hn1, hn2⟩ := air_index_bounds p hp1 hp2
    have hv1 : 3770 ≤ v := by rw [hv]; nlinarith
    have hv2 : v ≤ 6915 := by rw [hv]; nlinarith
    exact ⟨p, hp1, hp2, hv, hd, hv1, hv2⟩

/-- Helper (ESO round trip): converting a HARPS-range air wavelength to vacuum and
back recovers it to within the loop tolerance `2e-12` Angstroms. -/
theorem eso_roundtrip (w v : ℚ) (h1 : 3780 ≤ w) (h2 : w ≤ 6912)
    (h : air2vacElem w = some v) : |vac2airESO v - w| ≤ tolerance := by
  obtain ⟨p, hp1, hp2, hv, hpv, hv1, hv2⟩ := air2vacElem_range w v h1 h2 h
  obtain ⟨hnp1, hnp2⟩ := air_index_bounds p hp1 hp2
  obtain ⟨hnv1, hnv2⟩ := air_index_bounds v hv1 hv2
  have hnp0 : air_indexEdlen53 p ≠ 0 := by linarith
  have hnv0 : air_indexEdlen53 v ≠ 0 := by linarith
  have hw : w = v / air_indexEdlen53 p := by
    rw [hv]
    field_simp
  have key : vac2airESO v - w
      = v * (air_indexEdlen53 p - air_indexEdlen53 v)
        / (air_indexEdlen53 v * air_indexEdlen53 p) := by
    rw [vac2airESO, hw]
    field_simp
    ring
  have hd : |air_indexEdlen53 p - air_indexEdlen53 v| ≤ tolerance / 50000000 := by
    have habs := abs_le.mp hpv
    rcases le_total p v with hord | hord
    · obtain ⟨hm, hb⟩ := air_index_lipschitz p v hp1 hord hv2
      rw [abs_of_nonneg hm]
      have hvp : v - p ≤ tolerance := by linarith [habs.1]
      calc air_indexEdlen53 p - air_indexEdlen53 v ≤ (v - p) / 50000000 := hb
        _ ≤ tolerance / 50000000 := (div_le_div_right (by norm_num)).mpr hvp
    · obtain ⟨hm, hb⟩ := air_index_lipschitz v p hv1 hord hp2
      rw [abs_sub_comm, abs_of_nonneg hm]
      have hvp : p - v ≤ tolerance := by linarith [habs.2]
      calc air_indexEdlen53 v - air_indexEdlen53 p ≤ (p - v) / 50000000 := hb
        _ ≤ tolerance / 50000000 := (div_le_div_right (by norm_num)).mpr hvp
  have hnn : (1 : ℚ) ≤ air_indexEdlen53 v * air_indexEdlen53 p := by nlinarith
  have habsval : |vac2airESO v - w|
      = |v| * |air_indexEdlen53 p - air_indexEdlen53 v|
        / |air_indexEdlen53 v * air_indexEdlen53 p| := by
    rw [key, abs_div, abs_mul]
  rw [habsval, abs_of_pos (by linarith : (0:ℚ) < v),
    abs_of_pos (by linarith : (0:ℚ) < air_indexEdlen53 v * air_indexEdlen53 p)]
  have hnum : v * |air_indexEdlen53 p - air_indexEdlen53 v|
      ≤ 6915 * (tolerance / 50000000) := by
    apply mul_le_mul hv2 hd (abs_nonneg _) (by norm_num)
  have hquot : v * |air_indexEdlen53 p - air_indexEdlen53 v|
        / (air_indexEdlen53 v * air_indexEdlen53 p)
      ≤ v * |air_indexEdlen53 p - air_indexEdlen53 v| := by
    apply div_le_self _ hnn
    positivity
  have hfin : (6915 : ℚ) * (tolerance / 50000000) ≤ tolerance := by
    rw [tolerance]
    norm_num
  linarith

/-- Bounds for the Morton 2000 index over the physical range of `s`. -/
theorem mortonN_bounds (s : ℚ) (h1 : 2 < s) (h2 : s < 7.1) :
    1 < mortonN s ∧ mortonN s < 1 + 3 / 10000 := by
  have d1 : (122.9 : ℚ) < 130 - s := by linarith
  have d1' : (130 : ℚ) - s < 128 := by linarith
  have d2 : (31.8 : ℚ) < 38.9 - s := by linarith
  have d2' : (38.9 : ℚ) - s < 36.9 := by linarith
  have hA : (0.02406147 : ℚ) / (130 - s) < 0.02406147 / 122.9 :=
    (div_lt_div_left (by norm_num) (by linarith) (by norm_num)).mpr d1
  have hA' : (0 : ℚ) < 0.02406147 / (130 - s) := by positivity
  have hB : (0.00015998 : ℚ) / (38.9 - s) < 0.00015998 / 31.8 :=
    (div_lt_div_left (by norm_num) (by linarith) (by norm_num)).mpr d2
  have hB' : (0 : ℚ) < 0.00015998 / (38.9 - s) := by
    apply div_pos (by norm_num)
    linarith
  constructor
  · rw [mortonN]
    have : (0 : ℚ) < 0.0000834254 := by norm_num
    linarith
  · rw [mortonN]
    have hnum : (0.0000834254 : ℚ) + 0.02406147 / 122.9 + 0.00015998 / 31.8
        < 3 / 10000 := by norm_num
    linarith

/-- Lipschitz bound for the IAU inverse-fit index in `s` over the physical range. -/
theorem mortonIAUN_lipschitz (s s' : ℚ) (h1 : 2 < s') (h2 : s' ≤ s) (h3 : s < 7.1) :
    0 ≤ mortonIAUN s - mortonIAUN s' ∧
    mortonIAUN s - mortonIAUN s' ≤ (2 / 1000000) * (s - s') := by
  have d1 : (123 : ℚ) < 130.1065924522 - s := by linarith
  have d1' : (123 : ℚ) < 130.1065924522 - s' := by linarith
  have d2 : (31.8 : ℚ) < 38.92568793293 - s := by linarith
  have d2' : (31.8 : ℚ) < 38.92568793293 - s' := by linarith
  have e1 : (0.02408926869968 : ℚ) / (130.1065924522 - s)
      - 0.02408926869968 / (130.1065924522 - s')
      = 0.02408926869968 * (s - s')
        / ((130.1065924522 - s) * (130.1065924522 - s')) := by
    rw [div_sub_div _ _ (by linarith) (by linarith)]
    ring_nf
  have e2 : (0.0001599740894897 : ℚ) / (38.92568793293 - s)
      - 0.0001599740894897 / (38.92568793293 - s')
      = 0.0001599740894897 * (s - s')
        / ((38.92568793293 - s) * (38.92568793293 - s')) := by
    rw [div_sub_div _ _ (by linarith) (by linarith)]
    ring_nf
  have hd1 : (0 : ℚ) < (130.1065924522 - s) * (130.1065924522 - s') := by nlinarith
  have hd2 : (0 : ℚ) < (38.92568793293 - s) * (38.92568793293 - s') := by nlinarith
  have hnum1 : (0 : ℚ) ≤ 0.02408926869968 * (s - s') := by nlinarith
  have hnum2 : (0 : ℚ) ≤ 0.0001599740894897 * (s - s') := by nlinarith
  have hb1 : 0.02408926869968 * (s - s')
        / ((130.1065924522 - s) * (130.1065924522 - s'))
      ≤ 0.02408926869968 * (s - s') / (123 * 123) := by
    rcases eq_or_lt_of_le hnum1 with hz | hpos
    · rw [← hz]
      simp
    · exact le_of_lt ((div_lt_div_left hpos hd1 (by norm_num)).mpr (by nlinarith))
  have hb2 : 0.0001599740894897 * (s - s')
        / ((38.92568793293 - s) * (38.92568793293 - s'))
      ≤ 0.0001599740894897 * (s - s') / (31.8 * 31.8) := by
    rcases eq_or_lt_of_le hnum2 with hz | hpos
    · rw [← hz]
      simp
    · exact le_of_lt ((div_lt_div_left hpos hd2 (by norm_num)).mpr (by nlinarith))
  have hdiff : mortonIAUN s - mortonIAUN s'
      = (0.02408926869968 / (130.1065924522 - s)
          - 0.02408926869968 / (130.1065924522 - s'))
        + (0.0001599740894897 / (38.92568793293 - s)
          - 0.0001599740894897 / (38.92568793293 - s')) := by
    rw [mortonIAUN, mortonIAUN]
    ring
  constructor
  · rw [hdiff, e1, e2]
    have t1 := div_nonneg hnum1 (le_of_lt hd1)
    have t2 := div_nonneg hnum2 (le_of_lt hd2)
    linarith
  · rw [hdiff, e1, e2]
    have hc1 : (0.02408926869968 : ℚ) * (s - s') / (123 * 123)
        = (0.02408926869968 / (123 * 123)) * (s - s') := by ring
    have hc2 : (0.0001599740894897 : ℚ) * (s - s') / (31.8 * 31.8)
        = (0.0001599740894897 / (31.8 * 31.8)) * (s - s') := by ring
    rw [hc1] at hb1
    rw [hc2] at hb2
    have hconst : (0.02408926869968 : ℚ) / (123 * 123)
        + 0.0001599740894897 / (31.8 * 31.8) ≤ 2 / 1000000 := by norm_num
    have hss : (0 : ℚ) ≤ s - s' := by linarith
    have hid : (0.02408926869968 / (123 * 123) : ℚ) * (s - s')
          + (0.0001599740894897 / (31.8 * 31.8)) * (s - s')
        = (0.02408926869968 / (123 * 123)
          + 0.0001599740894897 / (31.8 * 31.8)) * (s - s') := by ring
    have hfin := mul_le_mul_of_nonneg_right hconst hss
    linarith [add_le_add hb1 hb2]

/-- The IAU index is decreasing and Lipschitz in the wavelength. -/
theorem mortonIAU_index_lipschitz (x y : ℚ) (h1 : 3770 ≤ x) (h2 : x ≤ y)
    (h3 : y ≤ 6915) :
    0 ≤ mortonIAUN ((1e4 / x) ^ 2) - mortonIAUN ((1e4 / y) ^ 2) ∧
    mortonIAUN ((1e4 / x) ^ 2) - mortonIAUN ((1e4 / y) ^ 2) ≤ (y - x) / 50000000 := by
  obtain ⟨hs1, hs2⟩ := sq_range x h1 (by linarith)
  obtain ⟨hs1', hs2'⟩ := sq_range y (by linarith) h3
  obtain ⟨hm, hb⟩ := sdiff_bound x y h1 h2 h3
  obtain ⟨hl1, hl2⟩ := mortonIAUN_lipschitz ((1e4 / x) ^ 2) ((1e4 / y) ^ 2) hs1'
    (by linarith) hs2
  refine ⟨hl1, le_trans hl2 ?_⟩
  calc (2 / 1000000 : ℚ) * ((1e4 / x) ^ 2 - (1e4 / y) ^ 2)
      ≤ (2 / 1000000) * ((7 / 1000) * (y - x)) :=
        mul_le_mul_of_nonneg_left hb (by norm_num)
    _ ≤ (y - x) / 50000000 := by nlinarith

/-- Pointwise difference of the two Morton-family indices over the physical range:
the IAU fit differs from the Morton 2000 formula by at most `1.5e-7` at the same
`s`. -/
theorem morton_pointwise (s : ℚ) (h1 : 2 < s) (h2 : s < 7.1) :
    |mortonIAUN s - mortonN s| ≤ 15 / 100000000 := by
  have d1 : (123 : ℚ) < 130.1065924522 - s := by linarith
  have d1' : (122.9 : ℚ) < 130 - s := by linarith
  have d2 : (31.8 : ℚ) < 38.92568793293 - s := by linarith
  have d2' : (31.8 : ℚ) < 38.9 - s := by linarith
  have hDf : (15000 : ℚ) ≤ (130.1065924522 - s) * (130 - s) := by nlinarith
  have hDg : (1000 : ℚ) ≤ (38.92568793293 - s) * (38.9 - s) := by nlinarith
  have ef : (0.02408926869968 : ℚ) / (130.1065924522 - s) - 0.02406147 / (130 - s)
      = (0.02408926869968 * (130 - s) - (130.1065924522 - s) * 0.02406147)
        / ((130.1065924522 - s) * (130 - s)) :=
    div_sub_div _ _ (by linarith) (by linarith)
  have eg : (0.0001599740894897 : ℚ) / (38.92568793293 - s) - 0.00015998 / (38.9 - s)
      = (0.0001599740894897 * (38.9 - s) - (38.92568793293 - s) * 0.00015998)
        / ((38.92568793293 - s) * (38.9 - s)) :=
    div_sub_div _ _ (by linarith) (by linarith)
  have hNf_pos : (0 : ℚ)
      ≤ 0.02408926869968 * (130 - s) - (130.1065924522 - s) * 0.02406147 := by
    linarith
  have hNf_ub : (0.02408926869968 : ℚ) * (130 - s) - (130.1065924522 - s) * 0.02406147
      ≤ 11 / 10000 := by linarith
  have hf_lb : (0 : ℚ)
      ≤ 0.02408926869968 / (130.1065924522 - s) - 0.02406147 / (130 - s) := by
    rw [ef]
    exact div_nonneg hNf_pos (by nlinarith)
  have hf_ub : (0.02408926869968 : ℚ) / (130.1065924522 - s) - 0.02406147 / (130 - s)
      ≤ (11 / 10000) / 15000 := by
    rw [ef]
    exact div_le_div (by norm_num) hNf_ub (by norm_num) hDf
  have hM_lb : (0 : ℚ)
      ≤ (38.92568793293 - s) * 0.00015998 - 0.0001599740894897 * (38.9 - s) := by
    linarith
  have hM_ub : (38.92568793293 - s) * 0.00015998 - 0.0001599740894897 * (38.9 - s)
      ≤ 44 / 10000000 := by linarith
  have hg_neg : (0.0001599740894897 : ℚ) / (38.92568793293 - s)
        - 0.00015998 / (38.9 - s)
      = -(((38.92568793293 - s) * 0.00015998 - 0.0001599740894897 * (38.9 - s))
          / ((38.92568793293 - s) * (38.9 - s))) := by
    rw [eg]
    ring
  have hg_inner_lb : (0 : ℚ)
      ≤ ((38.92568793293 - s) * 0.00015998 - 0.0001599740894897 * (38.9 - s))
          / ((38.92568793293 - s) * (38.9 - s)) :=
    div_nonneg hM_lb (by nlinarith)
  have hg_inner_ub : ((38.92568793293 - s) * 0.00015998
        - 0.0001599740894897 * (38.9 - s))
          / ((38.92568793293 - s) * (38.9 - s))
      ≤ (44 / 10000000) / 1000 :=
    div_le_div (by norm_num) hM_ub (by norm_num) hDg
  have hdecomp : mortonIAUN s - mortonN s
      = (0.00008336624212083 - 0.0000834254)
        + (0.02408926869968 / (130.1065924522 - s) - 0.02406147 / (130 - s))
        + (0.0001599740894897 / (38.92568793293 - s) - 0.00015998 / (38.9 - s)) := by
    rw [mortonIAUN, mortonN]
    ring
  rw [abs_le]
  constructor
  · rw [hdecomp, hg_neg]
    have hc0 : (-(6 / 100000000) : ℚ) ≤ 0.00008336624212083 - 0.0000834254 := by
      norm_num
    have : (44 / 10000000 : ℚ) / 1000 ≤ 5 / 1000000000 := by norm_num
    linarith
  · rw [hdecomp, hg_neg]
    have hc0 : (0.00008336624212083 : ℚ) - 0.0000834254 ≤ 0 := by norm_num
    have : (11 / 10000 : ℚ) / 15000 ≤ 8 / 100000000 := by norm_num
    linarith

/-- Helper (Morton/IAU round trip): converting a HARPS-range vacuum wavelength to air
with `vac2airMorton00` and back with `air2vacMortonIAU` recovers it to within
`1/500 = 2e-3` Angstroms (but NOT to within the `2e-12` iteration tolerance: see the
counterexample). -/
theorem morton_roundtrip (w : ℚ) (h1 : 3780 ≤ w) (h2 : w ≤ 6912) :
    |air2vacMortonIAU (vac2airMorton00 w) - w| ≤ 1 / 500 := by
  obtain ⟨hs1, hs2⟩ := sq_range w (by linarith) (by linarith)
  obtain ⟨hm1, hm2⟩ := mortonN_bounds ((1e4 / w) ^ 2) hs1 hs2
  have hw0 : (0 : ℚ) < w := by linarith
  rw [vac2airMorton00_eq]
  set nM := mortonN ((1e4 / w) ^ 2) with hnM
  have hnM0 : (0 : ℚ) < nM := by linarith
  have hne : nM ≠ 0 := ne_of_gt hnM0
  set a := w / nM with ha
  have ha_pos : 0 < a := div_pos hw0 hnM0
  have ha_le : a ≤ w := div_le_self (le_of_lt hw0) (le_of_lt hm1)
  have ha_ge : 3770 ≤ a := by
    rw [ha]
    have step1 : w / (1 + 3 / 10000) ≤ w / nM :=
      (div_le_div_left hw0 (by norm_num) hnM0).mpr (le_of_lt hm2)
    have step2 : (3780 : ℚ) / (1 + 3 / 10000) ≤ w / (1 + 3 / 10000) :=
      (div_le_div_right (by norm_num)).mpr h1
    have step3 : (3770 : ℚ) ≤ 3780 / (1 + 3 / 10000) := by norm_num
    linarith
  have hwa0 : 0 ≤ w - a := by linarith
  have hwa : w - a ≤ 21 / 10 := by
    have htrans : w - a = w * (nM - 1) / nM := by
      rw [ha]
      field_simp
      ring
    have hstep1 : w * (nM - 1) / nM ≤ w * (nM - 1) :=
      div_le_self (mul_nonneg (le_of_lt hw0) (by linarith)) (le_of_lt hm1)
    have hstep2 : w * (nM - 1) ≤ 21 / 10 := by nlinarith
    linarith
  have hw_eq : w = a * nM := by
    rw [ha]
    field_simp
  rw [air2vacMortonIAU_eq]
  have hdiff : a * mortonIAUN ((1e4 / a) ^ 2) - w
      = a * (mortonIAUN ((1e4 / a) ^ 2) - nM) := by
    nth_rewrite 1 [hw_eq]
    ring
  rw [hdiff, abs_mul, abs_of_pos ha_pos]
  have hlip := mortonIAU_index_lipschitz a w ha_ge ha_le (by linarith)
  have h1st : |mortonIAUN ((1e4 / a) ^ 2) - mortonIAUN ((1e4 / w) ^ 2)|
      ≤ (21 / 10) / 50000000 := by
    rw [abs_of_nonneg hlip.1]
    calc mortonIAUN ((1e4 / a) ^ 2) - mortonIAUN ((1e4 / w) ^ 2)
        ≤ (w - a) / 50000000 := hlip.2
      _ ≤ (21 / 10) / 50000000 := (div_le_div_right (by norm_num)).mpr hwa
  have h2nd := morton_pointwise ((1e4 / w) ^ 2) hs1 hs2
  rw [← hnM] at h2nd
  have htri : |mortonIAUN ((1e4 / a) ^ 2) - nM|
      ≤ |mortonIAUN ((1e4 / a) ^ 2) - mortonIAUN ((1e4 / w) ^ 2)|
        + |mortonIAUN ((1e4 / w) ^ 2) - nM| :=
    abs_sub_le _ _ _
  have hdbound : |mortonIAUN ((1e4 / a) ^ 2) - nM|
      ≤ (21 / 10) / 50000000 + 15 / 100000000 := by linarith
  calc a * |mortonIAUN ((1e4 / a) ^ 2) - nM|
      ≤ 6912 * ((21 / 10) / 50000000 + 15 / 100000000) :=
        mul_le_mul (by linarith) hdbound (abs_nonneg _) (by norm_num)
    _ ≤ 1 / 500 := by norm_num

/-- Counterexample for C2: the Morton/IAU round trip at 5000 Angstroms misses the
original wavelength by more than the stated tolerance `2e-12` (the actual discrepancy
is about `1.1e-9` Angstroms). -/
theorem morton_roundtrip_cex :
    tolerance < |air2vacMortonIAU (vac2airMorton00 5000) - 5000| := by
  with_unfolding_all decide

/-- C2 as amended: over the HARPS optical range, the ESO pair round-trips to within
the stated tolerance `2e-12` Angstroms (whenever `air2vacESO` returns), while the
Morton/IAU pair round-trips only to within `1/500 = 2e-3` Angstroms — it does not meet
the `2e-12` tolerance (see the counterexample for this claim). -/
theorem roundtrip_tolerances (w : ℚ) (h1 : 3780 ≤ w) (h2 : w ≤ 6912) :
    (∀ v, air2vacElem w = some v → |vac2airESO v - w| ≤ tolerance) ∧
    |air2vacMortonIAU (vac2airMorton00 w) - w| ≤ 1 / 500 :=
  ⟨fun v hv => eso_roundtrip w v h1 h2 hv, morton_roundtrip w h1 h2⟩

/-- Witness for C2 (amended) at 5500 Angstroms. -/
theorem roundtrip_tolerances_witness :
    (∀ v, air2vacElem 5500 = some v → |vac2airESO v - 5500| ≤ tolerance) ∧
    |air2vacMortonIAU (vac2airMorton00 5500) - 5500| ≤ 1 / 500 :=
  roundtrip_tolerances 5500 (by norm_num) (by norm_num)

end Varconlib
